import Mathlib

/-!
Verification of the polling/deduplication/notification engine of `src/bot.py`.

The development shallowly embeds the program:

* Python `str` values that undergo code-point level surgery (hrefs, URLs) are
  modelled as `List Char`, exactly the sequence-of-code-points view Python
  gives; opaque keys (source names, item ids, labels) are Lean `String`s.
* The persisted dedup file (`seen.json`) is modelled as an association list
  from source name to the stored id list; `load_state` / `save_state` become
  explicit state threading plus `Event.persist` entries in an effect trace.
* Python `set` values have unspecified iteration order, so the model fixes a
  canonical order (insertion order); every property about set-valued data is
  stated at the membership level, which is the only level `bot.py` determines.
* The network, the chat client and the clock are inputs: a poll cycle is a
  pure function of the channel-resolution outcome, the bootstrap flag, the
  per-source fetch results and the loaded state, returning the new state and
  the ordered list of observable effects.
-/

namespace NpcBot

/-- One candidate news item as built by `fetch_latest_items` (src/bot.py:149):
`id` is the hash key, `title` the anchor text, `link` the resolved href. -/
structure Item where
  id : String
  title : String
  link : String
deriving DecidableEq, Repr

/-- The persisted dedup state (`seen.json`): a mapping from source name to the
list of already-seen item ids, modelled as an association list in insertion
order (Python 3 dicts preserve insertion order). -/
abbrev DedupState := List (String × List String)

/-- `state.get(name, [])` (src/bot.py:181): the stored id list of a source,
defaulting to the empty list. -/
def stateGet : DedupState → String → List String
  | [], _ => []
  | (k, v) :: rest, name => if k = name then v else stateGet rest name

/-- `state[name] = v` (src/bot.py:186,194): replace the binding of `name`
if present, otherwise append it. -/
def stateSet : DedupState → String → List String → DedupState
  | [], name, v => [(name, v)]
  | (k, w) :: rest, name, v =>
    if k = name then (k, v) :: rest else (k, w) :: stateSet rest name v

/-- Boolean membership test on a stored id list, standing for Python's
`in` test on a set of ids. -/
def memb (x : String) : List String → Bool
  | [] => false
  | y :: ys => x == y || memb x ys

/-- `known.add(id)` on the set of known ids (src/bot.py:193), in canonical
(insertion) order: a no-op when the id is already present. -/
def setInsert (known : List String) (x : String) : List String :=
  if memb x known then known else known ++ [x]

/-- `list({*known, *ids})` (src/bot.py:186): the union of the known ids and
the fetched ids, in canonical (left-to-right insertion) order. -/
def setUnion (known ids : List String) : List String :=
  ids.foldl setInsert known

/-- Observable effects of one poll cycle, in program order:
`load` is the `load_state()` read of `seen.json` (src/bot.py:174),
`fetchSrc` is the network fetch attempt of one source (src/bot.py:177),
`notify` is one dispatched announcement — `announce_news_item`
(src/bot.py:192, 158-164), `persist` is one `save_state` whole-document
write with the written snapshot (src/bot.py:187,195), and `sleep` is the
rate-limit delay `time.sleep(0.5)` (src/bot.py:198). -/
inductive Event where
  | load
  | fetchSrc (name : String)
  | notify (name label : String) (item : Item)
  | persist (st : DedupState)
  | sleep
deriving DecidableEq, Repr

/-- Number of `notify` events for source `s` announcing the id `x`. -/
def countIdNotify (s x : String) : List Event → Nat
  | [] => 0
  | Event.notify n _ it :: tr =>
    (if n = s ∧ it.id = x then 1 else 0) + countIdNotify s x tr
  | _ :: tr => countIdNotify s x tr

/-- Number of `notify` events for source `s` (any item). -/
def notifySrcCount (s : String) : List Event → Nat
  | [] => 0
  | Event.notify n _ _ :: tr => (if n = s then 1 else 0) + notifySrcCount s tr
  | _ :: tr => notifySrcCount s tr

/-- Whether an event is a notification dispatch. -/
def isNotifyEv : Event → Bool
  | Event.notify _ _ _ => true
  | _ => false

/-- Total number of `notify` events in a trace. -/
def notifyTotal : List Event → Nat
  | [] => 0
  | Event.notify _ _ _ :: tr => 1 + notifyTotal tr
  | _ :: tr => notifyTotal tr

/-- The post-bootstrap dispatch loop `for it in reversed(new_items): ...`
(src/bot.py:191-195) for one source: for each item announce it, add its id
to the known set, write the updated whole state, then continue with the next
item.  Returns the final state and the emitted effects in order. -/
def processNewItems (label : String) (known : List String) (st : DedupState)
    (name : String) : List Item → DedupState × List Event
  | [] => (st, [])
  | it :: rest =>
    let known' := setInsert known it.id
    let st' := stateSet st name known'
    let r := processNewItems label known' st' name rest
    (r.1, Event.notify name label it :: Event.persist st' :: r.2)

/-- The body of the per-source block of `news_loop` (src/bot.py:177-198),
after the fetch result `items` is in hand: skip the source when the fetch
failed or found nothing; during bootstrap merge every fetched id into the
stored set, persist, and emit nothing; otherwise announce the new items
oldest-first and persist after each, then apply the rate-limit delay. -/
def processSource (bootstrapDone : Bool) (st : DedupState) (name label : String)
    (items : List Item) : DedupState × List Event :=
  if items = [] then (st, [])
  else
    let known := stateGet st name
    let newItems := items.filter fun it => !memb it.id known
    if !bootstrapDone then
      let st' := stateSet st name (setUnion known (items.map Item.id))
      (st', [Event.persist st'])
    else
      let r := processNewItems label known st name newItems.reverse
      (r.1, r.2 ++ [Event.sleep])

/-- The `for name, (url, label) in NEWS_SOURCES.items():` loop of `news_loop`
(src/bot.py:176-198), over an abstract source registry (name, label), with
the per-source fetch results supplied by `fetchRes`. -/
def runSources (bootstrapDone : Bool) (fetchRes : String → List Item) :
    List (String × String) → DedupState → DedupState × List Event
  | [], st => (st, [])
  | (name, label) :: rest, st =>
    let r1 := processSource bootstrapDone st name label (fetchRes name)
    let r2 := runSources bootstrapDone fetchRes rest r1.1
    (r2.1, (Event.fetchSrc name :: r1.2) ++ r2.2)

/-- One invocation of `news_loop` (src/bot.py:166-198) over an abstract
source registry: if the notice channel does not resolve, return at once with
no effects (src/bot.py:170-172); otherwise read the persisted state and
process every registered source in order. -/
def news_loop_gen (sources : List (String × String)) (chResolved : Bool)
    (bootstrapDone : Bool) (fetchRes : String → List Item) (st : DedupState) :
    DedupState × List Event :=
  if chResolved then
    let r := runSources bootstrapDone fetchRes sources st
    (r.1, Event.load :: r.2)
  else (st, [])

/-- The static source registry `NEWS_SOURCES` (src/bot.py:88-94):
name, url, label, in insertion order. -/
def NEWS_SOURCES : List (String × String × String) :=
  [("공지사항", "https://mabinogimobile.nexon.com/News/Notice", "📣 공지"),
   ("업데이트", "https://mabinogimobile.nexon.com/News/Update", "🛠 업데이트"),
   ("이벤트", "https://mabinogimobile.nexon.com/News/Events?headlineId=2501", "🎉 이벤트"),
   ("에린노트", "https://mabinogimobile.nexon.com/News/Devnote", "📔 에린노트")]

/-- The registry as (name, label) pairs, as consumed by the poll cycle. -/
def newsSources : List (String × String) :=
  NEWS_SOURCES.map fun p => (p.1, p.2.2)

/-- The dedup state `load_state` returns when `seen.json` is missing or
corrupt (src/bot.py:99-106): one empty entry per registered source. -/
def initState : DedupState :=
  NEWS_SOURCES.map fun p => (p.1, ([] : List String))

/-- One invocation of `news_loop` over the program's actual registry. -/
def news_loop (chResolved bootstrapDone : Bool)
    (fetchRes : String → List Item) (st : DedupState) : DedupState × List Event :=
  news_loop_gen newsSources chResolved bootstrapDone fetchRes st

/-! ### The feed fetcher (src/bot.py:112-156)

Python performs code-point level string surgery here, so this part of the
model works on `List Char` (exactly Python's sequence-of-code-points view of
`str`); `hashlib.sha1(url.encode("utf-8"))` is modelled by a full SHA-1 over
the UTF-8 byte sequence. -/

/-- Truncation to a 32-bit word (Python ints are unbounded; SHA-1 works
modulo 2^32). -/
def w32 (n : Nat) : Nat := n % 4294967296

/-- 32-bit left rotation by `b` of a word `n < 2^32`. -/
def rotl (b n : Nat) : Nat := (n % 2 ^ (32 - b)) * 2 ^ b + n / 2 ^ (32 - b)

/-- UTF-8 encoding of one code point, as Python's `str.encode("utf-8")`
produces it. -/
def utf8Char (c : Char) : List Nat :=
  let n := c.toNat
  if n < 128 then [n]
  else if n < 2048 then [192 + n / 64, 128 + n % 64]
  else if n < 65536 then [224 + n / 4096, 128 + n / 64 % 64, 128 + n % 64]
  else [240 + n / 262144, 128 + n / 4096 % 64, 128 + n / 64 % 64, 128 + n % 64]

/-- UTF-8 encoding of a Python string (`url.encode("utf-8")`). -/
def utf8Bytes (s : List Char) : List Nat := s.flatMap utf8Char

/-- Big-endian byte decomposition of `n` into `k` bytes. -/
def beBytes (k n : Nat) : List Nat :=
  (List.range k).map fun i => n / 256 ^ (k - 1 - i) % 256

/-- SHA-1 message padding: append `0x80`, zero-fill to 56 mod 64 bytes, then
the 8-byte big-endian bit length. -/
def sha1Pad (msg : List Nat) : List Nat :=
  let r := (msg.length + 1) % 64
  let z := if r ≤ 56 then 56 - r else 120 - r
  msg ++ [128] ++ List.replicate z 0 ++ beBytes 8 (msg.length * 8)

/-- Group a byte list into big-endian 32-bit words. -/
def toWords : List Nat → List Nat
  | b0 :: b1 :: b2 :: b3 :: rest =>
    (((b0 * 256 + b1) * 256 + b2) * 256 + b3) :: toWords rest
  | _ => []

/-- Split a byte list into 64-byte blocks. -/
def chunks64 : List Nat → List (List Nat)
  | [] => []
  | b :: rest => ((b :: rest).take 64) :: chunks64 ((b :: rest).drop 64)
termination_by l => l.length
decreasing_by simp [List.length_drop]; omega

/-- SHA-1 message schedule: extend 16 words to 80, keeping the reversed
prefix while looping. -/
def extendLoop : Nat → List Nat → List Nat
  | 0, rws => rws.reverse
  | n + 1, rws =>
    let x := rotl 1 ((rws.getD 2 0 ^^^ rws.getD 7 0) ^^^ (rws.getD 13 0 ^^^ rws.getD 15 0))
    extendLoop n (x :: rws)

/-- The 80 schedule words of one 64-byte block. -/
def sha1Words (block : List Nat) : List Nat :=
  extendLoop 64 (toWords block).reverse

/-- The SHA-1 round function for round `i`. -/
def sha1F (i b c d : Nat) : Nat :=
  if i < 20 then (b &&& c) ||| ((4294967295 - b) &&& d)
  else if i < 40 then (b ^^^ c) ^^^ d
  else if i < 60 then ((b &&& c) ||| (b &&& d)) ||| (c &&& d)
  else (b ^^^ c) ^^^ d

/-- The SHA-1 round constant for round `i`. -/
def sha1K (i : Nat) : Nat :=
  if i < 20 then 1518500249
  else if i < 40 then 1859775393
  else if i < 60 then 2400959708
  else 3395469782

/-- One SHA-1 round on the five-register state. -/
def sha1Round (st : Nat × Nat × Nat × Nat × Nat) (iw : Nat × Nat) :
    Nat × Nat × Nat × Nat × Nat :=
  let a := st.1; let b := st.2.1; let c := st.2.2.1; let d := st.2.2.2.1; let e := st.2.2.2.2
  let temp := w32 (rotl 5 a + sha1F iw.1 b c d + e + sha1K iw.1 + iw.2)
  (temp, a, rotl 30 b, c, d)

/-- Compression of one 64-byte block into the running hash state. -/
def sha1Block (h : Nat × Nat × Nat × Nat × Nat) (block : List Nat) :
    Nat × Nat × Nat × Nat × Nat :=
  let ws := sha1Words block
  let r := ws.enum.foldl sha1Round h
  (w32 (h.1 + r.1), w32 (h.2.1 + r.2.1), w32 (h.2.2.1 + r.2.2.1),
   w32 (h.2.2.2.1 + r.2.2.2.1), w32 (h.2.2.2.2 + r.2.2.2.2))

/-- Lowercase hex digit. -/
def hexChar (n : Nat) : Char :=
  if n < 10 then Char.ofNat (48 + n) else Char.ofNat (87 + n)

/-- Eight lowercase hex digits of a 32-bit word. -/
def toHex8 (n : Nat) : List Char :=
  (List.range 8).map fun i => hexChar (n / 16 ^ (7 - i) % 16)

/-- SHA-1 hex digest of a byte sequence (`hashlib.sha1(...).hexdigest()`);
checked against Python's `hashlib` on several vectors, including multibyte
UTF-8 input. -/
def sha1Hex (msg : List Nat) : String :=
  let h := (chunks64 (sha1Pad msg)).foldl sha1Block
    (1732584193, 4023233417, 2562383102, 271733878, 3285377520)
  String.mk (toHex8 h.1 ++ toHex8 h.2.1 ++ toHex8 h.2.2.1 ++ toHex8 h.2.2.2.1 ++
    toHex8 h.2.2.2.2)

/-- `normalize_link` (src/bot.py:112-115): the item id is the SHA-1 hex
digest of the UTF-8 encoded link. -/
def normalize_link (url : List Char) : String := sha1Hex (utf8Bytes url)

/-- The site root prepended to site-relative hrefs (src/bot.py:133). -/
def nexonBase : List Char := "https://mabinogimobile.nexon.com".data

/-- The relative-path fixup of `fetch_latest_items` (src/bot.py:131-133):
an href beginning with a slash is resolved against the site root. -/
def resolveHref (href : List Char) : List Char :=
  if List.isPrefixOf ("/".data) href then nexonBase ++ href else href

/-- The id `fetch_latest_items` computes for one extracted href: the href is
first resolved (src/bot.py:131-133) and the resolved link is hashed
(src/bot.py:146). -/
def anchorId (href : List Char) : String := normalize_link (resolveHref href)

/-- Python's substring test `needle in hay`. -/
def pyContains (needle : List Char) : List Char → Bool
  | [] => needle.isEmpty
  | c :: rest => needle.isPrefixOf (c :: rest) || pyContains needle rest

/-- The news path fragments a candidate href must contain
(src/bot.py:135-137). -/
def newsSegs : List (List Char) :=
  ["/News/Notice".data, "/News/Update".data, "/News/Events".data, "/News/Devnote".data]

/-- The host fragment a candidate href must contain (src/bot.py:135). -/
def nexonHost : List Char := "mabinogimobile.nexon.com".data

/-- The anchor-collection loop of `fetch_latest_items` (src/bot.py:128-140):
resolve each href, keep those that point into the news sections and whose
stripped text is non-empty, pairing the title with the resolved href. -/
def collectAnchors : List (String × List Char) → List (String × List Char)
  | [] => []
  | (text, href) :: rest =>
    let href' := resolveHref href
    if pyContains nexonHost href' && (newsSegs.any fun seg => pyContains seg href') &&
        !(text == "")
      then (text, href') :: collectAnchors rest
      else collectAnchors rest

/-- The dedup-and-truncate loop of `fetch_latest_items` (src/bot.py:142-152):
drop anchors whose hashed id was already seen in this batch (first occurrence
wins), build the items, and stop once `limit` items are collected. -/
def dedupLimit (limit : Nat) (seen : List String) (count : Nat) :
    List (String × List Char) → List Item
  | [] => []
  | (title, href) :: rest =>
    let key := normalize_link href
    if memb key seen then dedupLimit limit seen count rest
    else
      let it : Item := ⟨key, title, String.mk href⟩
      if limit ≤ count + 1 then [it]
      else it :: dedupLimit limit (seen ++ [key]) (count + 1) rest

/-- `fetch_latest_items` (src/bot.py:117-152) after the network request and
markup extraction: the extractor output (text, href) is an input, a network
or parse failure is modelled by the caller passing an empty item list to the
cycle (src/bot.py:154-156). -/
def fetch_latest_items (anchors : List (String × List Char)) (limit : Nat) :
    List Item :=
  dedupLimit limit [] 0 (collectAnchors anchors)

/-- The two time-of-day alert kinds `tick_loop` can send (src/bot.py:70-77). -/
inductive TickMsg where
  | hourly
  | fieldBoss
deriving DecidableEq, Repr

/-- One invocation of `tick_loop` (src/bot.py:62-77) as a function of the
channel-resolution outcome and the current KST wall-clock hour and minute:
the list of alert messages sent, in send order. -/
def tick_loop (chResolved : Bool) (hour minute : Nat) : List TickMsg :=
  if !chResolved then []
  else
    (if minute = 0 ∧ 9 ≤ hour ∧ hour ≤ 23 then [TickMsg.hourly] else []) ++
    (if minute = 0 ∧ (hour = 12 ∨ hour = 18 ∨ hour = 20 ∨ hour = 22)
      then [TickMsg.fieldBoss] else [])

/-- A sequence of post-bootstrap poll cycles: each entry gives the channel
resolution outcome and the fetch results of that cycle, the dedup state
threads through (`seen.json` persists between invocations of
src/bot.py:166-198).  Returns the final state and the per-cycle traces. -/
def runNewsCycles (sources : List (String × String)) :
    List (Bool × (String → List Item)) → DedupState → DedupState × List (List Event)
  | [], st => (st, [])
  | c :: rest, st =>
    let r := news_loop_gen sources c.1 true c.2 st
    let rr := runNewsCycles sources rest r.1
    (rr.1, r.2 :: rr.2)

/-- Modelled from the spec's description of the dispatch phase: for each item
of the new list, in the given order, dispatch its notification, mark its id
known, and persist the whole state (the current state with this source's
entry updated through the ids handled so far) before the next item.  Written
against the pre-cycle state `st`, to be compared with the threaded-state
recursion of the code. -/
def specDispatchTrace (name label : String) (known : List String) (st : DedupState) :
    List Item → List Event
  | [] => []
  | it :: rest =>
    Event.notify name label it ::
    Event.persist (stateSet st name (setInsert known it.id)) ::
    specDispatchTrace name label (setInsert known it.id) st rest

/-! ### The scheduler and the bootstrap gate (src/bot.py:97, 265-282)

The process is event-driven: the chat library invokes `on_ready` (possibly
again after a gateway reconnect), the one-shot `call_later` timer fires, and
the two scheduled loops run.  `pstep` is the effect of one such event on the
process state. -/

/-- Process-scoped mutable state: the bootstrap gate `_bootstrap_done`
(src/bot.py:97), whether each loop has been started, whether the one-shot
timer has been armed and has fired, and the persisted dedup state. -/
structure ProcState where
  bootstrapDone : Bool
  newsRunning : Bool
  tickRunning : Bool
  timerArmed : Bool
  timerFired : Bool
  dedup : DedupState

/-- Process start (module load, src/bot.py:97): gate false, nothing running,
no timer, default dedup state. -/
def initProc : ProcState :=
  { bootstrapDone := false, newsRunning := false, tickRunning := false,
    timerArmed := false, timerFired := false, dedup := initState }

/-- The events that drive the process: an `on_ready` invocation, the firing
of the `call_later` timer, one `news_loop` invocation, one `tick_loop`
invocation. -/
inductive PLabel where
  | ready
  | timerFire
  | poll (chOk : Bool) (fetchRes : String → List Item)
  | tick (chOk : Bool) (hour minute : Nat)

/-- One scheduler event.  `ready` is `on_ready` (src/bot.py:265-282): it
starts the loops if not yet running, unconditionally resets
`_bootstrap_done` to false (src/bot.py:278), and arms the 10-second one-shot
timer only when it is the invocation that starts `news_loop`
(src/bot.py:279-282).  `timerFire` is the `call_later` callback setting the
gate true; it can fire only once.  `poll` and `tick` run the loops, which
never write the gate. -/
def pstep (s : ProcState) : PLabel → ProcState
  | PLabel.ready =>
    let s1 := { s with tickRunning := true, bootstrapDone := false }
    if s1.newsRunning then s1
    else { s1 with newsRunning := true, timerArmed := true }
  | PLabel.timerFire =>
    if s.timerArmed && !s.timerFired then
      { s with bootstrapDone := true, timerFired := true }
    else s
  | PLabel.poll chOk f =>
    if s.newsRunning then
      { s with dedup := (news_loop chOk s.bootstrapDone f s.dedup).1 }
    else s
  | PLabel.tick _ _ _ => s

/-- The process state after a sequence of scheduler events from start. -/
def runProc (ls : List PLabel) : ProcState := ls.foldl pstep initProc

/-- Occurrence count of an id in a stored id list. -/
def cnt (x : String) : List String → Nat
  | [] => 0
  | y :: ys => (if y = x then 1 else 0) + cnt x ys

/-- The property asserted by the delay claim, stated over a trace: between
any two consecutive notification dispatches there is a `sleep` event. -/
def delayBetweenDispatches (tr : List Event) : Prop :=
  ∀ i < tr.length, ∀ j < tr.length, i < j →
    isNotifyEv (tr.getD i Event.load) = true →
    isNotifyEv (tr.getD j Event.load) = true →
    (∀ m < j, i < m → isNotifyEv (tr.getD m Event.load) = false) →
    ∃ m < j, i < m ∧ tr.getD m Event.load = Event.sleep

set_option synthInstance.maxSize 4096 in
instance (tr : List Event) : Decidable (delayBetweenDispatches tr) := by
  unfold delayBetweenDispatches
  infer_instance

/-- Fetch results used by the C1 witness. -/
def wFetchC1 : String → List Item := fun n =>
  if n = "공지사항" then [⟨"W1", "tw", "lw"⟩] else []

/-- Fetch results used by the C2 witness. -/
def wFetchC2 : String → List Item := fun n =>
  if n = "공지사항" then [⟨"Z1", "tz", "lz"⟩] else []

/-- Fetch results used by the C6 witness: the update source fails, every
other source finds one item. -/
def wFetchC6 : String → List Item := fun n =>
  if n = "업데이트" then [] else [⟨"Q-" ++ n, "tq", "lq"⟩]

/-- Fetch results used by the C8 counterexample: two fresh items for one
source. -/
def wFetchC8 : String → List Item := fun n =>
  if n = "공지사항" then [⟨"X2", "t2", "l2"⟩, ⟨"X1", "t1", "l1"⟩] else []

/-- Items of the spec's worked scenario (C4).  The scenario's ids are
abstract labels for the hash keys. -/
def scnItem (idx : String) : Item := ⟨idx, "t" ++ idx, "l" ++ idx⟩

/-- Cycle-1/2 fetch of the scenario: A..E newest-first for the notice
source, nothing for the others. -/
def scnFetch1 : String → List Item := fun n =>
  if n = "공지사항"
    then [scnItem ("A"), scnItem ("B"), scnItem ("C"), scnItem ("D"), scnItem ("E")]
    else []

/-- Cycle-3 fetch of the scenario: F has appeared, E fell out of the window. -/
def scnFetch3 : String → List Item := fun n =>
  if n = "공지사항"
    then [scnItem ("F"), scnItem ("A"), scnItem ("B"), scnItem ("C"), scnItem ("D")]
    else []

/-- State and trace after scenario cycle 1 (bootstrap active). -/
def scnR1 : DedupState × List Event := news_loop true false scnFetch1 initState

/-- State and trace after scenario cycle 2 (gate elapsed, same fetch). -/
def scnR2 : DedupState × List Event := news_loop true true scnFetch1 scnR1.1

/-- State and trace after scenario cycle 3 (gate elapsed, F new). -/
def scnR3 : DedupState × List Event := news_loop true true scnFetch3 scnR2.1

/-! ### Basic lemmas about the dedup-state primitives -/

theorem memb_iff (x : String) (l : List String) : memb x l = true ↔ x ∈ l := by
  induction l with
  | nil => simp [memb]
  | cons y ys ih =>
    simp only [memb, Bool.or_eq_true, beq_iff_eq, ih, List.mem_cons]

theorem memb_eq_false_iff (x : String) (l : List String) :
    memb x l = false ↔ x ∉ l := by
  rw [← memb_iff x l]
  cases memb x l <;> simp

theorem mem_setInsert (y x : String) (known : List String) :
    y ∈ setInsert known x ↔ y = x ∨ y ∈ known := by
  unfold setInsert
  by_cases h : memb x known
  · rw [if_pos h]
    rw [memb_iff] at h
    constructor
    · exact Or.inr
    · rintro (rfl | hy) <;> [exact h; exact hy]
  · rw [if_neg h]
    simp [or_comm]

theorem mem_setUnion (y : String) (known ids : List String) :
    y ∈ setUnion known ids ↔ y ∈ known ∨ y ∈ ids := by
  induction ids generalizing known with
  | nil => simp [setUnion]
  | cons i is ih =>
    rw [show setUnion known (i :: is) = setUnion (setInsert known i) is from rfl,
      ih (setInsert known i), mem_setInsert, List.mem_cons]
    tauto

theorem stateGet_stateSet_self (st : DedupState) (n : String) (v : List String) :
    stateGet (stateSet st n v) n = v := by
  induction st with
  | nil => simp [stateSet, stateGet]
  | cons p rest ih =>
    obtain ⟨k, w⟩ := p
    by_cases h : k = n
    · simp [stateSet, stateGet, h]
    · simp [stateSet, stateGet, h, ih]

theorem stateGet_stateSet_ne (st : DedupState) (n : String) (v : List String)
    (m : String) (h : m ≠ n) :
    stateGet (stateSet st n v) m = stateGet st m := by
  induction st with
  | nil =>
    simp only [stateSet, stateGet]
    rw [if_neg fun hh : n = m => h hh.symm]
  | cons p rest ih =>
    obtain ⟨k, w⟩ := p
    simp only [stateSet]
    by_cases hk : k = n
    · rw [if_pos hk]
      have hkm : ¬k = m := by rw [hk]; exact fun hh => h hh.symm
      simp only [stateGet]
      rw [if_neg hkm, if_neg hkm]
    · rw [if_neg hk]
      simp only [stateGet]
      by_cases hm : k = m
      · rw [if_pos hm, if_pos hm]
      · rw [if_neg hm, if_neg hm, ih]

theorem stateSet_stateSet (st : DedupState) (n : String) (v w : List String) :
    stateSet (stateSet st n v) n w = stateSet st n w := by
  induction st with
  | nil => simp [stateSet]
  | cons p rest ih =>
    obtain ⟨k, u⟩ := p
    by_cases hk : k = n <;> simp [stateSet, hk, ih]

/-! ### Basic lemmas about `cnt` -/

theorem cnt_append (x : String) (l₁ l₂ : List String) :
    cnt x (l₁ ++ l₂) = cnt x l₁ + cnt x l₂ := by
  induction l₁ with
  | nil => simp [cnt]
  | cons y ys ih => simp [cnt, ih]; omega

theorem cnt_reverse (x : String) (l : List String) :
    cnt x l.reverse = cnt x l := by
  induction l with
  | nil => rfl
  | cons y ys ih => simp [cnt, List.reverse_cons, cnt_append, ih]; omega

theorem cnt_eq_zero (x : String) (l : List String) (h : x ∉ l) : cnt x l = 0 := by
  induction l with
  | nil => rfl
  | cons y ys ih =>
    simp only [List.mem_cons, not_or] at h
    simp [cnt, Ne.symm h.1, ih h.2]

theorem cnt_eq_one (x : String) (l : List String) (hnd : l.Nodup) (hx : x ∈ l) :
    cnt x l = 1 := by
  induction l with
  | nil => cases hx
  | cons y ys ih =>
    rw [List.nodup_cons] at hnd
    rcases List.mem_cons.1 hx with rfl | hx'
    · simp [cnt, cnt_eq_zero x ys hnd.1]
    · have : y ≠ x := fun h => hnd.1 (h ▸ hx')
      simp [cnt, this, ih hnd.2 hx']

theorem cnt_map_reverse (x : String) (l : List Item) :
    cnt x (l.reverse.map Item.id) = cnt x (l.map Item.id) := by
  rw [List.map_reverse]
  exact cnt_reverse x (l.map Item.id)

/-- Counting an id among the ids of the items that survive the `new_items`
filter (src/bot.py:182): already-known ids are gone, unknown ids keep their
multiplicity. -/
theorem cnt_filter_ids (items : List Item) (known : List String) (x : String) :
    cnt x ((items.filter fun it => !memb it.id known).map Item.id)
      = if x ∈ known then 0 else cnt x (items.map Item.id) := by
  induction items with
  | nil => simp [cnt]
  | cons it rest ih =>
    rw [List.filter_cons]
    by_cases hm : memb it.id known
    · have hcond : ¬(!memb it.id known) = true := by simp [hm]
      rw [if_neg hcond, ih]
      by_cases hx : x ∈ known
      · rw [if_pos hx, if_pos hx]
      · have hne : ¬it.id = x := fun h => hx (h ▸ (memb_iff _ _).1 hm)
        rw [if_neg hx, if_neg hx]
        simp [cnt, hne]
    · have hcond : (!memb it.id known) = true := by simp [hm]
      have hid : it.id ∉ known := by
        rw [← memb_eq_false_iff]
        simpa using hm
      rw [if_pos hcond]
      by_cases hx : x ∈ known
      · have hne : ¬it.id = x := fun h => hid (h ▸ hx)
        simp [cnt, hne, ih, hx]
      · simp [cnt, ih, hx]

theorem memb_append (x : String) (l₁ l₂ : List String) :
    memb x (l₁ ++ l₂) = (memb x l₁ || memb x l₂) := by
  induction l₁ with
  | nil => simp [memb]
  | cons y ys ih => simp [memb, ih, Bool.or_assoc]

/-- The dedup-and-truncate loop produces items with pairwise distinct ids,
none of which was in the already-seen set. -/
theorem dedupLimit_nodup (limit : Nat) :
    ∀ (pairs : List (String × List Char)) (seen : List String) (count : Nat),
      ((dedupLimit limit seen count pairs).map Item.id).Nodup
      ∧ ∀ x ∈ (dedupLimit limit seen count pairs).map Item.id, memb x seen = false := by
  intro pairs
  induction pairs with
  | nil => intro seen count; exact ⟨List.nodup_nil, by simp [dedupLimit]⟩
  | cons p rest ih =>
    intro seen count
    obtain ⟨title, href⟩ := p
    have hunf : dedupLimit limit seen count ((title, href) :: rest)
        = if memb (normalize_link href) seen then dedupLimit limit seen count rest
          else if limit ≤ count + 1 then [⟨normalize_link href, title, String.mk href⟩]
          else ⟨normalize_link href, title, String.mk href⟩ ::
            dedupLimit limit (seen ++ [normalize_link href]) (count + 1) rest := rfl
    rw [hunf]
    by_cases hm : memb (normalize_link href) seen
    · rw [if_pos hm]
      exact ih seen count
    · rw [if_neg hm]
      have hmf : memb (normalize_link href) seen = false := by
        cases hq : memb (normalize_link href) seen
        · rfl
        · exact absurd hq hm
      by_cases hl : limit ≤ count + 1
      · rw [if_pos hl]
        refine ⟨by simp, ?_⟩
        intro x hx
        simp only [List.map_cons, List.map_nil, List.mem_singleton] at hx
        subst hx
        exact hmf
      · rw [if_neg hl]
        obtain ⟨ihnd, ihseen⟩ := ih (seen ++ [normalize_link href]) (count + 1)
        refine ⟨?_, ?_⟩
        · simp only [List.map_cons, List.nodup_cons]
          refine ⟨?_, ihnd⟩
          intro hmem
          have := ihseen _ hmem
          rw [memb_append] at this
          simp [memb] at this
        · intro x hx
          simp only [List.map_cons, List.mem_cons] at hx
          rcases hx with rfl | hx'
          · exact hmf
          · have := ihseen x hx'
            rw [memb_append, Bool.or_eq_false_iff] at this
            exact this.1

/-- Ids coming out of `fetch_latest_items` are pairwise distinct — the
within-batch dedup of src/bot.py:142-152.  This discharges the
duplicate-free hypothesis of the exactly-once claim for real fetch
results. -/
theorem fetch_ids_nodup (anchors : List (String × List Char)) (limit : Nat) :
    ((fetch_latest_items anchors limit).map Item.id).Nodup :=
  (dedupLimit_nodup limit (collectAnchors anchors) [] 0).1

/-! ### Lemmas about trace counters -/

theorem countIdNotify_append (s x : String) (t₁ t₂ : List Event) :
    countIdNotify s x (t₁ ++ t₂) = countIdNotify s x t₁ + countIdNotify s x t₂ := by
  induction t₁ with
  | nil => simp [countIdNotify]
  | cons e t ih =>
    cases e <;> simp [countIdNotify, ih, Nat.add_assoc]

theorem notifySrcCount_append (s : String) (t₁ t₂ : List Event) :
    notifySrcCount s (t₁ ++ t₂) = notifySrcCount s t₁ + notifySrcCount s t₂ := by
  induction t₁ with
  | nil => simp [notifySrcCount]
  | cons e t ih =>
    cases e <;> simp [notifySrcCount, ih, Nat.add_assoc]

/-! ### Lemmas about the per-source dispatch loop -/

theorem setUnion_nil (known : List String) : setUnion known [] = known := rfl

theorem setUnion_cons (known : List String) (x : String) (ids : List String) :
    setUnion known (x :: ids) = setUnion (setInsert known x) ids := rfl

/-- The final state of the dispatch loop: the entry of the processed source
holds the union of the previously known ids and the dispatched ids; nothing
is written when there was nothing to dispatch. -/
theorem processNewItems_fst (label name : String) :
    ∀ (L : List Item) (known : List String) (st : DedupState),
      stateGet st name = known →
      (processNewItems label known st name L).1
        = if L = [] then st else stateSet st name (setUnion known (L.map Item.id)) := by
  intro L
  induction L with
  | nil => intro known st _; simp [processNewItems]
  | cons it rest ih =>
    intro known st hst
    have hst' : stateGet (stateSet st name (setInsert known it.id)) name
        = setInsert known it.id := stateGet_stateSet_self ..
    show (processNewItems label (setInsert known it.id)
        (stateSet st name (setInsert known it.id)) name rest).1 = _
    rw [ih (setInsert known it.id) (stateSet st name (setInsert known it.id)) hst']
    by_cases hrest : rest = []
    · subst hrest
      simp [setUnion_cons, setUnion_nil]
    · rw [if_neg hrest, if_neg (by simp : ¬it :: rest = []), stateSet_stateSet,
        List.map_cons, setUnion_cons]

theorem processNewItems_frame (label name m : String) (h : m ≠ name) :
    ∀ (L : List Item) (known : List String) (st : DedupState),
      stateGet (processNewItems label known st name L).1 m = stateGet st m := by
  intro L
  induction L with
  | nil => intro known st; rfl
  | cons it rest ih =>
    intro known st
    show stateGet (processNewItems label _ _ name rest).1 m = _
    rw [ih, stateGet_stateSet_ne _ _ _ _ h]

/-- The persisted-state bases collapse: the spec-side trace may be written
against any state whose entry for the source is about to be overwritten. -/
theorem specDispatchTrace_setBase (name label : String) :
    ∀ (L : List Item) (known : List String) (st : DedupState) (v : List String),
      specDispatchTrace name label known (stateSet st name v) L
        = specDispatchTrace name label known st L := by
  intro L
  induction L with
  | nil => intro known st v; rfl
  | cons it rest ih =>
    intro known st v
    simp only [specDispatchTrace, stateSet_stateSet]
    rw [ih]

/-- The dispatch loop of the code produces exactly the spec-described
per-item effect sequence. -/
theorem processNewItems_trace (label name : String) :
    ∀ (L : List Item) (known : List String) (st : DedupState),
      (processNewItems label known st name L).2
        = specDispatchTrace name label known st L := by
  intro L
  induction L with
  | nil => intro known st; rfl
  | cons it rest ih =>
    intro known st
    show Event.notify name label it :: Event.persist _ :: (processNewItems label _ _ name rest).2 = _
    rw [ih, specDispatchTrace_setBase]
    rfl

theorem processNewItems_countId (label name x : String) :
    ∀ (L : List Item) (known : List String) (st : DedupState),
      countIdNotify name x (processNewItems label known st name L).2
        = cnt x (L.map Item.id) := by
  intro L
  induction L with
  | nil => intro known st; rfl
  | cons it rest ih =>
    intro known st
    show countIdNotify name x
      (Event.notify name label it :: Event.persist _ :: (processNewItems label _ _ name rest).2)
        = _
    simp only [countIdNotify, ih, List.map_cons, cnt]
    by_cases hid : it.id = x <;> simp [hid]

theorem processNewItems_countId_other (label name s x : String) (h : ¬name = s) :
    ∀ (L : List Item) (known : List String) (st : DedupState),
      countIdNotify s x (processNewItems label known st name L).2 = 0 := by
  intro L
  induction L with
  | nil => intro known st; rfl
  | cons it rest ih =>
    intro known st
    show countIdNotify s x
      (Event.notify name label it :: Event.persist _ :: (processNewItems label _ _ name rest).2)
        = 0
    simp [countIdNotify, ih, h]

theorem processNewItems_srcCount_other (label name s : String) (h : ¬name = s) :
    ∀ (L : List Item) (known : List String) (st : DedupState),
      notifySrcCount s (processNewItems label known st name L).2 = 0 := by
  intro L
  induction L with
  | nil => intro known st; rfl
  | cons it rest ih =>
    intro known st
    show notifySrcCount s
      (Event.notify name label it :: Event.persist _ :: (processNewItems label _ _ name rest).2)
        = 0
    simp [notifySrcCount, ih, h]

theorem sleep_not_mem_processNewItems (label name : String) :
    ∀ (L : List Item) (known : List String) (st : DedupState),
      Event.sleep ∉ (processNewItems label known st name L).2 := by
  intro L
  induction L with
  | nil => intro known st; simp [processNewItems]
  | cons it rest ih =>
    intro known st
    show Event.sleep ∉
      Event.notify name label it :: Event.persist _ :: (processNewItems label _ _ name rest).2
    simp only [List.mem_cons, not_or]
    exact ⟨by simp, by simp, ih _ _⟩

/-! ### Lemmas about one source's block of the poll cycle -/

theorem processSource_nil (g : Bool) (st : DedupState) (name label : String) :
    processSource g st name label [] = (st, []) := rfl

/-- The bootstrap branch (src/bot.py:184-188) written out: one whole-state
persist of the merged id set and no other effect. -/
theorem processSource_bootstrap (st : DedupState) (name label : String)
    (items : List Item) (hne : items ≠ []) :
    processSource false st name label items
      = (stateSet st name (setUnion (stateGet st name) (items.map Item.id)),
         [Event.persist (stateSet st name (setUnion (stateGet st name) (items.map Item.id)))]) := by
  unfold processSource
  rw [if_neg hne]
  rfl

/-- The post-bootstrap branch (src/bot.py:190-198) written out via the
dispatch loop on the reversed new list. -/
theorem processSource_dispatch (st : DedupState) (name label : String)
    (items : List Item) (hne : items ≠ []) :
    processSource true st name label items
      = ((processNewItems label (stateGet st name) st name
            ((items.filter fun it => !memb it.id (stateGet st name)).reverse)).1,
         (processNewItems label (stateGet st name) st name
            ((items.filter fun it => !memb it.id (stateGet st name)).reverse)).2
           ++ [Event.sleep]) := by
  unfold processSource
  rw [if_neg hne]
  rfl

/-- Unknown fetched ids all survive the new-items filter: at the membership
level, known ∪ new-ids = known ∪ fetched-ids. -/
theorem mem_known_or_filter (items : List Item) (known : List String) (y : String) :
    (y ∈ known ∨ y ∈ (items.filter fun it => !memb it.id known).map Item.id)
      ↔ y ∈ known ∨ y ∈ items.map Item.id := by
  constructor
  · rintro (hk | hy)
    · exact Or.inl hk
    · rcases List.mem_map.1 hy with ⟨it, hit, rfl⟩
      exact Or.inr (List.mem_map.2 ⟨it, (List.mem_filter.1 hit).1, rfl⟩)
  · rintro (hk | hy)
    · exact Or.inl hk
    · rcases List.mem_map.1 hy with ⟨it, hit, rfl⟩
      by_cases hk : it.id ∈ known
      · exact Or.inl hk
      · refine Or.inr (List.mem_map.2 ⟨it, List.mem_filter.2 ⟨hit, ?_⟩, rfl⟩)
        simp [memb_eq_false_iff, hk]

/-- Effect of one source's block on that source's own stored entry, at the
membership level: when anything was fetched, the fetched ids are merged in
(both in the bootstrap branch and, via the per-item dispatch loop, in the
post-bootstrap branch); otherwise nothing changes. -/
theorem processSource_stateGet_self (g : Bool) (st : DedupState) (name label : String)
    (items : List Item) (y : String) :
    y ∈ stateGet (processSource g st name label items).1 name
      ↔ y ∈ stateGet st name ∨ (items ≠ [] ∧ y ∈ items.map Item.id) := by
  by_cases hne : items = []
  · subst hne
    simp [processSource_nil]
  · cases g
    · rw [processSource_bootstrap st name label items hne]
      simp only [stateGet_stateSet_self, mem_setUnion, hne, ne_eq, not_false_iff, true_and]
    · rw [processSource_dispatch st name label items hne]
      rw [processNewItems_fst label name _ _ _ rfl]
      by_cases hnew : (items.filter fun it => !memb it.id (stateGet st name)) = []
      · rw [hnew]
        simp only [List.reverse_nil, if_pos rfl, hne, ne_eq, not_false_iff, true_and]
        constructor
        · exact Or.inl
        · rintro (hk | hy)
          · exact hk
          · rcases List.mem_map.1 hy with ⟨it, hit, rfl⟩
            have := (List.filter_eq_nil_iff.1 hnew) it hit
            have hm : memb it.id (stateGet st name) = true := by
              revert this
              cases memb it.id (stateGet st name) <;> simp
            exact (memb_iff _ _).1 hm
      · rw [if_neg (by simpa using hnew), stateGet_stateSet_self, mem_setUnion,
          List.map_reverse, List.mem_reverse]
        rw [show (y ∈ stateGet st name ∨ (items ≠ [] ∧ y ∈ items.map Item.id))
            = (y ∈ stateGet st name ∨ y ∈ items.map Item.id) by simp [hne]]
        exact mem_known_or_filter items (stateGet st name) y

theorem processSource_stateGet_other (g : Bool) (st : DedupState) (name label : String)
    (items : List Item) (m : String) (h : m ≠ name) :
    stateGet (processSource g st name label items).1 m = stateGet st m := by
  by_cases hne : items = []
  · subst hne; rw [processSource_nil]
  · cases g
    · rw [processSource_bootstrap st name label items hne, stateGet_stateSet_ne _ _ _ _ h]
    · rw [processSource_dispatch st name label items hne, processNewItems_frame label name m h]

theorem processSource_mono (g : Bool) (st : DedupState) (name label : String)
    (items : List Item) (m y : String) (hy : y ∈ stateGet st m) :
    y ∈ stateGet (processSource g st name label items).1 m := by
  by_cases hm : m = name
  · subst hm
    exact (processSource_stateGet_self g st m label items y).2 (Or.inl hy)
  · rw [processSource_stateGet_other g st name label items m hm]
    exact hy

/-- Notification count of one source's block for its own name: zero during
bootstrap or when the id is already known, and otherwise the multiplicity of
the id among the fetched ids. -/
theorem processSource_countId_self (g : Bool) (st : DedupState) (name label : String)
    (items : List Item) (x : String) :
    countIdNotify name x (processSource g st name label items).2
      = if g = true ∧ x ∉ stateGet st name then cnt x (items.map Item.id) else 0 := by
  by_cases hne : items = []
  · subst hne
    rw [processSource_nil]
    simp [countIdNotify, cnt]
  · cases g
    · rw [processSource_bootstrap st name label items hne]
      simp [countIdNotify]
    · rw [processSource_dispatch st name label items hne]
      rw [countIdNotify_append, processNewItems_countId, cnt_map_reverse, cnt_filter_ids]
      by_cases hx : x ∈ stateGet st name
      · simp [countIdNotify, hx]
      · simp [countIdNotify, hx]

theorem processSource_countId_other (g : Bool) (st : DedupState) (name label : String)
    (items : List Item) (s x : String) (h : ¬name = s) :
    countIdNotify s x (processSource g st name label items).2 = 0 := by
  by_cases hne : items = []
  · subst hne; rw [processSource_nil]; rfl
  · cases g
    · rw [processSource_bootstrap st name label items hne]
      rfl
    · rw [processSource_dispatch st name label items hne]
      rw [countIdNotify_append, processNewItems_countId_other label name s x h]
      rfl

theorem processSource_srcCount_other (g : Bool) (st : DedupState) (name label : String)
    (items : List Item) (s : String) (h : ¬name = s) :
    notifySrcCount s (processSource g st name label items).2 = 0 := by
  by_cases hne : items = []
  · subst hne; rw [processSource_nil]; rfl
  · cases g
    · rw [processSource_bootstrap st name label items hne]
      rfl
    · rw [processSource_dispatch st name label items hne]
      rw [notifySrcCount_append, processNewItems_srcCount_other label name s h]
      rfl

/-- During bootstrap no source emits any notification. -/
theorem processSource_srcCount_bootstrap (st : DedupState) (name label : String)
    (items : List Item) (s : String) :
    notifySrcCount s (processSource false st name label items).2 = 0 := by
  by_cases hne : items = []
  · subst hne; rw [processSource_nil]; rfl
  · rw [processSource_bootstrap st name label items hne]
    rfl

/-! ### Lemmas about the whole poll cycle -/

theorem countIdNotify_load (s x : String) (tr : List Event) :
    countIdNotify s x (Event.load :: tr) = countIdNotify s x tr := rfl

theorem countIdNotify_fetchSrc (s x n : String) (tr : List Event) :
    countIdNotify s x (Event.fetchSrc n :: tr) = countIdNotify s x tr := rfl

theorem notifySrcCount_load (s : String) (tr : List Event) :
    notifySrcCount s (Event.load :: tr) = notifySrcCount s tr := rfl

theorem notifySrcCount_fetchSrc (s n : String) (tr : List Event) :
    notifySrcCount s (Event.fetchSrc n :: tr) = notifySrcCount s tr := rfl

/-- The source loop splits around a decomposition of the registry: the state
threads through and the traces concatenate. -/
theorem runSources_append (g : Bool) (f : String → List Item) :
    ∀ (xs ys : List (String × String)) (st : DedupState),
      runSources g f (xs ++ ys) st
        = ((runSources g f ys (runSources g f xs st).1).1,
           (runSources g f xs st).2 ++ (runSources g f ys (runSources g f xs st).1).2) := by
  intro xs
  induction xs with
  | nil => intro ys st; rfl
  | cons p rest ih =>
    intro ys st
    obtain ⟨name, label⟩ := p
    show ((runSources g f (rest ++ ys) _).1, _ ++ (runSources g f (rest ++ ys) _).2) = _
    rw [ih]
    simp only [runSources, List.append_assoc, List.cons_append]

theorem runSources_frame (g : Bool) (f : String → List Item) :
    ∀ (xs : List (String × String)) (st : DedupState) (s : String),
      s ∉ xs.map Prod.fst →
      stateGet (runSources g f xs st).1 s = stateGet st s := by
  intro xs
  induction xs with
  | nil => intro st s _; rfl
  | cons p rest ih =>
    intro st s hs
    obtain ⟨name, label⟩ := p
    simp only [List.map_cons, List.mem_cons, not_or] at hs
    show stateGet (runSources g f rest _).1 s = _
    rw [ih _ s hs.2, processSource_stateGet_other g st name label (f name) s hs.1]

theorem runSources_countId_notin (g : Bool) (f : String → List Item) (s x : String) :
    ∀ (xs : List (String × String)) (st : DedupState),
      s ∉ xs.map Prod.fst →
      countIdNotify s x (runSources g f xs st).2 = 0 := by
  intro xs
  induction xs with
  | nil => intro st _; rfl
  | cons p rest ih =>
    intro st hs
    obtain ⟨name, label⟩ := p
    simp only [List.map_cons, List.mem_cons, not_or] at hs
    show countIdNotify s x ((Event.fetchSrc name :: (processSource g st name label (f name)).2)
      ++ (runSources g f rest _).2) = 0
    rw [countIdNotify_append, countIdNotify_fetchSrc,
      processSource_countId_other g st name label (f name) s x (fun h => hs.1 h.symm),
      ih _ hs.2]

theorem runSources_srcCount_notin (g : Bool) (f : String → List Item) (s : String) :
    ∀ (xs : List (String × String)) (st : DedupState),
      s ∉ xs.map Prod.fst →
      notifySrcCount s (runSources g f xs st).2 = 0 := by
  intro xs
  induction xs with
  | nil => intro st _; rfl
  | cons p rest ih =>
    intro st hs
    obtain ⟨name, label⟩ := p
    simp only [List.map_cons, List.mem_cons, not_or] at hs
    show notifySrcCount s ((Event.fetchSrc name :: (processSource g st name label (f name)).2)
      ++ (runSources g f rest _).2) = 0
    rw [notifySrcCount_append, notifySrcCount_fetchSrc,
      processSource_srcCount_other g st name label (f name) s (fun h => hs.1 h.symm),
      ih _ hs.2]

/-- Effect of one whole source loop on the stored entry of a registered
source, at the membership level: the fetched ids are merged in when the
fetch produced anything, regardless of the bootstrap gate. -/
theorem runSources_stateGet_mem (g : Bool) (f : String → List Item) (s : String) :
    ∀ (xs : List (String × String)) (st : DedupState) (y : String),
      (xs.map Prod.fst).Nodup → s ∈ xs.map Prod.fst →
      (y ∈ stateGet (runSources g f xs st).1 s
        ↔ y ∈ stateGet st s ∨ (f s ≠ [] ∧ y ∈ (f s).map Item.id)) := by
  intro xs
  induction xs with
  | nil => intro st y _ hs; cases hs
  | cons p rest ih =>
    intro st y hnd hs
    obtain ⟨name, label⟩ := p
    simp only [List.map_cons, List.nodup_cons] at hnd
    show y ∈ stateGet (runSources g f rest (processSource g st name label (f name)).1).1 s ↔ _
    by_cases hn : name = s
    · subst hn
      rw [runSources_frame g f rest _ name hnd.1]
      exact processSource_stateGet_self g st name label (f name) y
    · rcases List.mem_cons.1 hs with h | hs'
      · exact absurd h.symm hn
      · rw [ih _ y hnd.2 hs',
          processSource_stateGet_other g st name label (f name) s (fun h => hn h.symm)]

/-- Notification count of one whole source loop for a registered source:
as for the source's own block. -/
theorem runSources_countId (g : Bool) (f : String → List Item) (s x : String) :
    ∀ (xs : List (String × String)) (st : DedupState),
      (xs.map Prod.fst).Nodup → s ∈ xs.map Prod.fst →
      countIdNotify s x (runSources g f xs st).2
        = if g = true ∧ x ∉ stateGet st s then cnt x ((f s).map Item.id) else 0 := by
  intro xs
  induction xs with
  | nil => intro st _ hs; cases hs
  | cons p rest ih =>
    intro st hnd hs
    obtain ⟨name, label⟩ := p
    simp only [List.map_cons, List.nodup_cons] at hnd
    show countIdNotify s x ((Event.fetchSrc name :: (processSource g st name label (f name)).2)
      ++ (runSources g f rest _).2) = _
    rw [countIdNotify_append, countIdNotify_fetchSrc]
    by_cases hn : name = s
    · subst hn
      rw [runSources_countId_notin g f name x rest _ hnd.1,
        processSource_countId_self g st name label (f name) x]
      omega
    · rcases List.mem_cons.1 hs with h | hs'
      · exact absurd h.symm hn
      · rw [processSource_countId_other g st name label (f name) s x hn,
          ih _ hnd.2 hs',
          processSource_stateGet_other g st name label (f name) s (fun h => hn h.symm)]
        omega

theorem runSources_mono (g : Bool) (f : String → List Item) :
    ∀ (xs : List (String × String)) (st : DedupState) (m y : String),
      y ∈ stateGet st m → y ∈ stateGet (runSources g f xs st).1 m := by
  intro xs
  induction xs with
  | nil => intro st m y hy; exact hy
  | cons p rest ih =>
    intro st m y hy
    obtain ⟨name, label⟩ := p
    exact ih _ m y (processSource_mono g st name label (f name) m y hy)

/-- With the gate closed the whole source loop emits no notification. -/
theorem runSources_bootstrap_srcCount (f : String → List Item) (s : String) :
    ∀ (xs : List (String × String)) (st : DedupState),
      notifySrcCount s (runSources false f xs st).2 = 0 := by
  intro xs
  induction xs with
  | nil => intro st; rfl
  | cons p rest ih =>
    intro st
    obtain ⟨name, label⟩ := p
    show notifySrcCount s ((Event.fetchSrc name :: (processSource false st name label (f name)).2)
      ++ (runSources false f rest _).2) = 0
    rw [notifySrcCount_append, notifySrcCount_fetchSrc,
      processSource_srcCount_bootstrap st name label (f name) s, ih]

theorem news_loop_gen_true_eq (sources : List (String × String)) (g : Bool)
    (f : String → List Item) (st : DedupState) :
    news_loop_gen sources true g f st
      = ((runSources g f sources st).1, Event.load :: (runSources g f sources st).2) := rfl

/-- Membership-level state effect of one full poll cycle (post-bootstrap
runs of `runNewsCycles` use the gate-true instance). -/
theorem news_cycle_stateGet_mem (sources : List (String × String)) (ch g : Bool)
    (f : String → List Item) (st : DedupState) (s y : String)
    (hnd : (sources.map Prod.fst).Nodup) (hs : s ∈ sources.map Prod.fst) :
    y ∈ stateGet (news_loop_gen sources ch g f st).1 s
      ↔ y ∈ stateGet st s ∨ (ch = true ∧ f s ≠ [] ∧ y ∈ (f s).map Item.id) := by
  cases ch
  · show y ∈ stateGet st s ↔ _
    simp
  · rw [news_loop_gen_true_eq]
    rw [runSources_stateGet_mem g f s sources st y hnd hs]
    simp

/-- Notification count of one full poll cycle for a registered source. -/
theorem news_cycle_countId (sources : List (String × String)) (ch g : Bool)
    (f : String → List Item) (st : DedupState) (s x : String)
    (hnd : (sources.map Prod.fst).Nodup) (hs : s ∈ sources.map Prod.fst) :
    countIdNotify s x (news_loop_gen sources ch g f st).2
      = if ch = true ∧ g = true ∧ x ∉ stateGet st s
          then cnt x ((f s).map Item.id) else 0 := by
  cases ch
  · show countIdNotify s x [] = _
    simp [countIdNotify]
  · rw [news_loop_gen_true_eq, countIdNotify_load,
      runSources_countId g f s x sources st hnd hs]
    simp

theorem news_cycle_mono (sources : List (String × String)) (ch g : Bool)
    (f : String → List Item) (st : DedupState) (m y : String)
    (hy : y ∈ stateGet st m) :
    y ∈ stateGet (news_loop_gen sources ch g f st).1 m := by
  cases ch
  · exact hy
  · rw [news_loop_gen_true_eq]
    exact runSources_mono g f sources st m y hy

/-- Once an id is stored for a source, every later post-bootstrap cycle
announces it zero times. -/
theorem runNewsCycles_zeros (sources : List (String × String)) (s x : String)
    (hnd : (sources.map Prod.fst).Nodup) (hs : s ∈ sources.map Prod.fst) :
    ∀ (cycles : List (Bool × (String → List Item))) (st : DedupState),
      x ∈ stateGet st s →
      (runNewsCycles sources cycles st).2.map (countIdNotify s x)
        = cycles.map (fun _ => 0) := by
  intro cycles
  induction cycles with
  | nil => intro st _; rfl
  | cons c rest ih =>
    intro st hx
    show countIdNotify s x (news_loop_gen sources c.1 true c.2 st).2 ::
      (runNewsCycles sources rest _).2.map (countIdNotify s x) = _
    rw [news_cycle_countId sources c.1 true c.2 st s x hnd hs,
      if_neg (by simp [hx]),
      ih _ (news_cycle_mono sources c.1 true c.2 st s x hx)]
    rfl

/-- Exact form of the stored entry after a gate-closed (bootstrap) source
loop: the canonical union list. -/
theorem runSources_bootstrap_stateGet (f : String → List Item) (s : String) :
    ∀ (xs : List (String × String)) (st : DedupState),
      (xs.map Prod.fst).Nodup → s ∈ xs.map Prod.fst → f s ≠ [] →
      stateGet (runSources false f xs st).1 s
        = setUnion (stateGet st s) ((f s).map Item.id) := by
  intro xs
  induction xs with
  | nil => intro st _ hs _; cases hs
  | cons p rest ih =>
    intro st hnd hs hne
    obtain ⟨name, label⟩ := p
    simp only [List.map_cons, List.nodup_cons] at hnd
    show stateGet (runSources false f rest (processSource false st name label (f name)).1).1 s = _
    by_cases hn : name = s
    · subst hn
      rw [runSources_frame false f rest _ name hnd.1,
        processSource_bootstrap st name label (f name) hne, stateGet_stateSet_self]
    · rcases List.mem_cons.1 hs with h | hs'
      · exact absurd h.symm hn
      · rw [ih _ hnd.2 hs' hne,
          processSource_stateGet_other false st name label (f name) s (fun h => hn h.symm)]

/-! ### Claim theorems -/

/-- C10: when the notice channel cannot be resolved, the poll cycle returns
immediately: the persisted state is untouched and the trace is empty — no
state-file read (`load`), no fetch, no persist, no notification
(src/bot.py:170-172). -/
theorem news_channel_missing_noop (sources : List (String × String)) (g : Bool)
    (f : String → List Item) (st : DedupState) :
    news_loop_gen sources false g f st = (st, []) := rfl

/-- C5: tick correctness — the hourly alert fires iff minute = 0 and
9 ≤ hour ≤ 23, the field-boss alert fires iff minute = 0 and
hour ∈ {12, 18, 20, 22}, and at 12:00 both fire, as two separate messages
(src/bot.py:62-77). -/
theorem tick_alert_conditions (hour minute : Nat) :
    (TickMsg.hourly ∈ tick_loop true hour minute
      ↔ minute = 0 ∧ 9 ≤ hour ∧ hour ≤ 23)
    ∧ (TickMsg.fieldBoss ∈ tick_loop true hour minute
      ↔ minute = 0 ∧ (hour = 12 ∨ hour = 18 ∨ hour = 20 ∨ hour = 22))
    ∧ tick_loop true 12 0 = [TickMsg.hourly, TickMsg.fieldBoss] := by
  refine ⟨?_, ?_, by decide⟩
  · simp only [tick_loop, Bool.not_true, Bool.false_eq_true, if_false, List.mem_append]
    split_ifs with h1 h2 <;> simp_all
  · simp only [tick_loop, Bool.not_true, Bool.false_eq_true, if_false, List.mem_append]
    split_ifs with h1 h2 <;> simp_all

/-- C7: the id the fetcher computes for a site-relative href equals the id
it computes for the resolved absolute form of that href; the id is the hash
of the resolved link only (src/bot.py:131-133, 146, 112-115). -/
theorem anchor_id_normalization (h : List Char)
    (hs : List.isPrefixOf ("/".data) h = true) :
    anchorId h = anchorId (resolveHref h) := by
  have h1 : resolveHref h = nexonBase ++ h := by
    unfold resolveHref
    rw [if_pos hs]
  have h2 : List.isPrefixOf ("/".data) (nexonBase ++ h) = false := rfl
  have h3 : resolveHref (nexonBase ++ h) = nexonBase ++ h := by
    unfold resolveHref
    rw [h2]
    simp
  show normalize_link (resolveHref h) = normalize_link (resolveHref (resolveHref h))
  rw [h1, h3]

/-- C7 witness: a concrete site-relative href. -/
theorem anchor_id_normalization_witness :
    List.isPrefixOf ("/".data) ("/News/Notice".data) = true
    ∧ anchorId ("/News/Notice".data) = anchorId (resolveHref ("/News/Notice".data)) :=
  ⟨by decide, anchor_id_normalization ("/News/Notice".data) (by decide)⟩

/-- C3: with the gate open, a source's block processes the new items in
reverse fetch order and, for each item, dispatches its notification and then
persists the whole state with the item's id added, before the next item
(src/bot.py:190-198); the final state is the union of the known ids with the
dispatched ids (no write when nothing was new). -/
theorem news_dispatch_effect_order (st : DedupState) (name label : String)
    (items : List Item) (hne : items ≠ []) :
    (processSource true st name label items).2
      = specDispatchTrace name label (stateGet st name) st
          ((items.filter fun it => !memb it.id (stateGet st name)).reverse)
        ++ [Event.sleep]
    ∧ (processSource true st name label items).1
      = if (items.filter fun it => !memb it.id (stateGet st name)).reverse = [] then st
        else stateSet st name
          (setUnion (stateGet st name)
            (((items.filter fun it => !memb it.id (stateGet st name)).reverse).map Item.id)) := by
  rw [processSource_dispatch st name label items hne]
  exact ⟨by rw [processNewItems_trace], by rw [processNewItems_fst label name _ _ _ rfl]⟩

/-- C3 witness: two fresh items against an empty entry. -/
theorem news_dispatch_effect_order_witness :
    (processSource true [] ("공지사항") ("📣 공지")
        [⟨"N2", "t2", "l2"⟩, ⟨"N1", "t1", "l1"⟩]).2
      = specDispatchTrace ("공지사항") ("📣 공지")
          (stateGet [] ("공지사항")) []
          (([⟨"N2", "t2", "l2"⟩, ⟨"N1", "t1", "l1"⟩].filter
            fun it => !memb it.id (stateGet [] ("공지사항"))).reverse)
        ++ [Event.sleep] :=
  (news_dispatch_effect_order [] ("공지사항") ("📣 공지")
    [⟨"N2", "t2", "l2"⟩, ⟨"N1", "t1", "l1"⟩] (by decide)).1

/-- C1: with the gate closed and a non-empty fetch, a registered source gets
zero notifications and its stored entry afterwards is the union of the
previously known ids with all fetched ids (src/bot.py:184-188). -/
theorem news_bootstrap_suppression (sources : List (String × String)) (s : String)
    (f : String → List Item) (st : DedupState)
    (hnd : (sources.map Prod.fst).Nodup) (hs : s ∈ sources.map Prod.fst)
    (hne : f s ≠ []) :
    notifySrcCount s (news_loop_gen sources true false f st).2 = 0
    ∧ stateGet (news_loop_gen sources true false f st).1 s
      = setUnion (stateGet st s) ((f s).map Item.id) := by
  rw [news_loop_gen_true_eq, notifySrcCount_load]
  exact ⟨runSources_bootstrap_srcCount f s sources st,
    runSources_bootstrap_stateGet f s sources st hnd hs hne⟩

/-- C1 witness: the real registry, one fetched item for the notice source. -/
theorem news_bootstrap_suppression_witness :
    notifySrcCount ("공지사항") (news_loop_gen newsSources true false wFetchC1 []).2 = 0
    ∧ stateGet (news_loop_gen newsSources true false wFetchC1 []).1 ("공지사항")
      = setUnion (stateGet [] ("공지사항")) ((wFetchC1 ("공지사항")).map Item.id) :=
  news_bootstrap_suppression newsSources ("공지사항") wFetchC1 []
    (by decide) (by decide) (by decide)

/-- C8 counterexample: in a post-bootstrap cycle with two new items for one
source, the two dispatches are consecutive with no sleep between them — the
delay of src/bot.py:198 sits after the per-source dispatch loop, not inside
it. -/
theorem news_no_delay_between_dispatches_cex :
    ¬ delayBetweenDispatches (news_loop true true wFetchC8 initState).2 := by
  decide

/-- C8 (amended): the fixed delay is applied once per source, after all of
that source's dispatches: a gate-open block with a non-empty fetch ends with
exactly one `sleep`, and no `sleep` occurs anywhere among the per-item
dispatch effects (src/bot.py:191-198). -/
theorem news_delay_after_source_batch (st : DedupState) (name label : String)
    (items : List Item) (hne : items ≠ []) :
    (processSource true st name label items).2
      = (processNewItems label (stateGet st name) st name
          ((items.filter fun it => !memb it.id (stateGet st name)).reverse)).2
        ++ [Event.sleep]
    ∧ Event.sleep ∉ (processNewItems label (stateGet st name) st name
          ((items.filter fun it => !memb it.id (stateGet st name)).reverse)).2 := by
  exact ⟨congrArg Prod.snd (processSource_dispatch st name label items hne),
    sleep_not_mem_processNewItems label name _ _ _⟩

/-- C8 amended-theorem witness: concrete two-item source block. -/
theorem news_delay_after_source_batch_witness :
    (processSource true [] ("업데이트") ("🛠 업데이트")
        [⟨"Y2", "t2", "l2"⟩, ⟨"Y1", "t1", "l1"⟩]).2
      = (processNewItems ("🛠 업데이트") (stateGet [] ("업데이트")) [] ("업데이트")
          (([⟨"Y2", "t2", "l2"⟩, ⟨"Y1", "t1", "l1"⟩].filter
            fun it => !memb it.id (stateGet [] ("업데이트"))).reverse)).2
        ++ [Event.sleep] :=
  (news_delay_after_source_batch [] ("업데이트") ("🛠 업데이트")
    [⟨"Y2", "t2", "l2"⟩, ⟨"Y1", "t1", "l1"⟩] (by decide)).1

/-- C4: the spec's worked scenario, run on the program's registry from the
empty persisted state: cycle 1 emits nothing and stores {A,B,C,D,E}; cycle 2
emits nothing and leaves the state unchanged; cycle 3 emits exactly one
notification, for F, and stores {A,B,C,D,E,F}. -/
theorem news_scenario_three_cycles :
    notifyTotal scnR1.2 = 0
    ∧ (stateGet scnR1.1 ("공지사항")).toFinset
      = ({"A", "B", "C", "D", "E"} : Finset String)
    ∧ notifyTotal scnR2.2 = 0
    ∧ scnR2.1 = scnR1.1
    ∧ scnR3.2.filter isNotifyEv
      = [Event.notify ("공지사항") ("📣 공지") (scnItem ("F"))]
    ∧ (stateGet scnR3.1 ("공지사항")).toFinset
      = ({"A", "B", "C", "D", "E", "F"} : Finset String) := by
  decide

/-- C6: a source whose fetch fails (or finds nothing) receives zero
notifications and keeps its stored entry, while the rest of the cycle is
exactly the cycle over the registry without that source, apart from the
fetch attempt itself (src/bot.py:154-156, 177-179). -/
theorem news_fetch_failure_isolation
    (pre post : List (String × String)) (s l : String) (g : Bool)
    (f : String → List Item) (st : DedupState)
    (hnd : ((pre ++ (s, l) :: post).map Prod.fst).Nodup)
    (hf : f s = []) :
    news_loop_gen (pre ++ (s, l) :: post) true g f st
      = ((runSources g f post (runSources g f pre st).1).1,
         Event.load :: ((runSources g f pre st).2
           ++ Event.fetchSrc s :: (runSources g f post (runSources g f pre st).1).2))
    ∧ news_loop_gen (pre ++ post) true g f st
      = ((runSources g f post (runSources g f pre st).1).1,
         Event.load :: ((runSources g f pre st).2
           ++ (runSources g f post (runSources g f pre st).1).2))
    ∧ stateGet (news_loop_gen (pre ++ (s, l) :: post) true g f st).1 s = stateGet st s
    ∧ notifySrcCount s (news_loop_gen (pre ++ (s, l) :: post) true g f st).2 = 0 := by
  have hmap : (pre ++ (s, l) :: post).map Prod.fst
      = pre.map Prod.fst ++ s :: post.map Prod.fst := by simp
  rw [hmap, List.nodup_append] at hnd
  obtain ⟨hnd1, hnd2, hdisj⟩ := hnd
  have hspre : s ∉ pre.map Prod.fst := fun h => hdisj h (List.mem_cons_self s _)
  have hspost : s ∉ post.map Prod.fst := (List.nodup_cons.1 hnd2).1
  have hmid : ∀ st1, runSources g f ((s, l) :: post) st1
      = ((runSources g f post st1).1,
         Event.fetchSrc s :: (runSources g f post st1).2) := by
    intro st1
    show ((runSources g f post (processSource g st1 s l (f s)).1).1,
      (Event.fetchSrc s :: (processSource g st1 s l (f s)).2)
        ++ (runSources g f post (processSource g st1 s l (f s)).1).2) = _
    rw [hf, processSource_nil]
    rfl
  have hsplit : runSources g f (pre ++ (s, l) :: post) st
      = ((runSources g f post (runSources g f pre st).1).1,
         (runSources g f pre st).2
           ++ Event.fetchSrc s :: (runSources g f post (runSources g f pre st).1).2) := by
    rw [runSources_append g f pre ((s, l) :: post) st, hmid]
  refine ⟨?_, ?_, ?_, ?_⟩
  · rw [news_loop_gen_true_eq, hsplit]
  · rw [news_loop_gen_true_eq, runSources_append g f pre post st]
  · rw [news_loop_gen_true_eq, hsplit]
    show stateGet (runSources g f post (runSources g f pre st).1).1 s = _
    rw [runSources_frame g f post _ s hspost, runSources_frame g f pre st s hspre]
  · rw [news_loop_gen_true_eq, notifySrcCount_load, hsplit]
    show notifySrcCount s ((runSources g f pre st).2
      ++ Event.fetchSrc s :: (runSources g f post (runSources g f pre st).1).2) = 0
    rw [notifySrcCount_append, notifySrcCount_fetchSrc,
      runSources_srcCount_notin g f s pre st hspre,
      runSources_srcCount_notin g f s post _ hspost]

/-- C6 witness: the real registry with a failing update source keeps the
update source's entry unchanged. -/
theorem news_fetch_failure_isolation_witness :
    stateGet (news_loop_gen ([("공지사항", "📣 공지")] ++ ("업데이트", "🛠 업데이트") ::
        [("이벤트", "🎉 이벤트"), ("에린노트", "📔 에린노트")]) true true wFetchC6 []).1
        ("업데이트")
      = stateGet [] ("업데이트") :=
  (news_fetch_failure_isolation [("공지사항", "📣 공지")]
    [("이벤트", "🎉 이벤트"), ("에린노트", "📔 에린노트")] ("업데이트") ("🛠 업데이트")
    true wFetchC6 [] (by decide) (by decide)).2.2.1

/-- C2: across a run of gate-open poll cycles, an id that is absent from the
persisted state is announced exactly once for its source — in the first
cycle whose fetch result contains it (with the channel resolved) — and never
in any earlier or later cycle (src/bot.py:181-195).  The per-cycle
announcement counts for that id are 0, ..., 0, 1, 0, ..., 0.  The fetched id
lists are duplicate-free, as `fetch_latest_items` guarantees
(`fetch_ids_nodup`). -/
theorem news_exactly_once_post_bootstrap
    (sources : List (String × String)) (s x : String)
    (st0 : DedupState) (pre post : List (Bool × (String → List Item)))
    (c : Bool × (String → List Item))
    (hnd : (sources.map Prod.fst).Nodup) (hs : s ∈ sources.map Prod.fst)
    (hx0 : x ∉ stateGet st0 s)
    (hpre : ∀ d ∈ pre, ¬(d.1 = true ∧ x ∈ (d.2 s).map Item.id))
    (hc : c.1 = true ∧ x ∈ (c.2 s).map Item.id)
    (hids : ((c.2 s).map Item.id).Nodup) :
    (runNewsCycles sources (pre ++ c :: post) st0).2.map (countIdNotify s x)
      = pre.map (fun _ => 0) ++ 1 :: post.map (fun _ => 0) := by
  have hcne : c.2 s ≠ [] := by
    intro he
    rw [he] at hc
    simp at hc
  revert hx0 hpre
  induction pre generalizing st0 with
  | nil =>
    intro hx0 _
    show countIdNotify s x (news_loop_gen sources c.1 true c.2 st0).2 ::
      (runNewsCycles sources post (news_loop_gen sources c.1 true c.2 st0).1).2.map
        (countIdNotify s x) = 1 :: post.map (fun _ => 0)
    rw [news_cycle_countId sources c.1 true c.2 st0 s x hnd hs,
      if_pos ⟨hc.1, rfl, hx0⟩, cnt_eq_one x _ hids hc.2,
      runNewsCycles_zeros sources s x hnd hs post _
        ((news_cycle_stateGet_mem sources c.1 true c.2 st0 s x hnd hs).2
          (Or.inr ⟨hc.1, hcne, hc.2⟩))]
  | cons d pre' ih =>
    intro hx0 hpre
    have hd : ¬(d.1 = true ∧ x ∈ (d.2 s).map Item.id) :=
      hpre d (List.mem_cons_self d pre')
    have hx1 : x ∉ stateGet (news_loop_gen sources d.1 true d.2 st0).1 s := by
      rw [news_cycle_stateGet_mem sources d.1 true d.2 st0 s x hnd hs]
      rintro (h | ⟨hch, _, hmem⟩)
      · exact hx0 h
      · exact hd ⟨hch, hmem⟩
    have hdcount : countIdNotify s x (news_loop_gen sources d.1 true d.2 st0).2 = 0 := by
      rw [news_cycle_countId sources d.1 true d.2 st0 s x hnd hs]
      by_cases hch : d.1 = true
      · rw [if_pos ⟨hch, rfl, hx0⟩]
        refine cnt_eq_zero x _ fun hmem => hd ⟨hch, hmem⟩
      · rw [if_neg fun hcond => hch hcond.1]
    show countIdNotify s x (news_loop_gen sources d.1 true d.2 st0).2 ::
      (runNewsCycles sources (pre' ++ c :: post)
        (news_loop_gen sources d.1 true d.2 st0).1).2.map (countIdNotify s x)
      = 0 :: (pre'.map (fun _ => 0) ++ 1 :: post.map (fun _ => 0))
    rw [hdcount,
      ih (news_loop_gen sources d.1 true d.2 st0).1 hx1
        (fun d' hd' => hpre d' (List.mem_cons_of_mem d hd'))]

/-- C2 witness: two identical gate-open cycles announce the fresh id in the
first cycle only. -/
theorem news_exactly_once_post_bootstrap_witness :
    (runNewsCycles newsSources [(true, wFetchC2), (true, wFetchC2)] []).2.map
      (countIdNotify ("공지사항") ("Z1")) = [1, 0] := by
  simpa using news_exactly_once_post_bootstrap newsSources ("공지사항") ("Z1") []
    [] [(true, wFetchC2)] (true, wFetchC2)
    (by decide) (by decide) (by decide) (by simp) (by decide) (by decide)

/-- C9 counterexample: after the gate has been flipped true by the timer, a
re-invocation of the ready handler (a gateway reconnect) resets it to false
— the claim's "no step ever sets it back to false" fails on the code, since
src/bot.py:278 runs on every `on_ready` call while the timer of
src/bot.py:282 is armed only on the first. -/
theorem bootstrap_gate_reset_cex :
    (runProc [PLabel.ready, PLabel.timerFire]).bootstrapDone = true
    ∧ (runProc [PLabel.ready, PLabel.timerFire, PLabel.ready]).bootstrapDone = false :=
  ⟨rfl, rfl⟩

/-- C9 (amended): the gate starts false; the run ready-then-timer flips it
true; no poll, tick, or timer step ever resets a true gate — only a ready
re-invocation can; a false gate turns true only through the timer step, which
requires the timer armed and not yet fired; and the fired flag is monotone,
so the timer fires at most once in any run (src/bot.py:97, 265-282). -/
theorem bootstrap_gate_lifecycle :
    initProc.bootstrapDone = false
    ∧ (runProc [PLabel.ready, PLabel.timerFire]).bootstrapDone = true
    ∧ (∀ (s : ProcState) (l : PLabel), l ≠ PLabel.ready → s.bootstrapDone = true →
        (pstep s l).bootstrapDone = true)
    ∧ (∀ (s : ProcState) (l : PLabel), s.bootstrapDone = false →
        (pstep s l).bootstrapDone = true →
        l = PLabel.timerFire ∧ s.timerArmed = true ∧ s.timerFired = false)
    ∧ (∀ (s : ProcState) (l : PLabel), s.timerFired = true →
        (pstep s l).timerFired = true) := by
  refine ⟨rfl, rfl, ?_, ?_, ?_⟩
  · intro s l hl hs
    cases l with
    | ready => exact absurd rfl hl
    | timerFire =>
      simp only [pstep]
      split
      · rfl
      · exact hs
    | poll ch f =>
      simp only [pstep]
      split
      · exact hs
      · exact hs
    | tick ch hh mm => exact hs
  · intro s l hs0 hs1
    cases l with
    | ready =>
      exfalso
      simp only [pstep] at hs1
      split at hs1 <;> simp at hs1
    | timerFire =>
      simp only [pstep] at hs1
      by_cases h : (s.timerArmed && !s.timerFired) = true
      · rcases Bool.and_eq_true_iff.1 h with ⟨ha, hf⟩
        exact ⟨rfl, ha, by simpa using hf⟩
      · rw [if_neg h] at hs1
        exact absurd hs1 (by simp [hs0])
    | poll ch f =>
      exfalso
      simp only [pstep] at hs1
      split at hs1 <;> simp_all
    | tick ch hh mm =>
      exfalso
      simp only [pstep] at hs1
      simp_all
  · intro s l hs
    cases l with
    | ready =>
      simp only [pstep]
      split
      · exact hs
      · exact hs
    | timerFire =>
      simp only [pstep]
      split
      · rfl
      · exact hs
    | poll ch f =>
      simp only [pstep]
      split
      · exact hs
      · exact hs
    | tick ch hh mm => exact hs

/-- C9 amended-theorem witness: a timer step never lowers a raised gate. -/
theorem bootstrap_gate_lifecycle_witness :
    (pstep { bootstrapDone := true, newsRunning := true, tickRunning := true,
             timerArmed := true, timerFired := true, dedup := [] }
      PLabel.timerFire).bootstrapDone = true :=
  bootstrap_gate_lifecycle.2.2.1 _ PLabel.timerFire
    (fun h => PLabel.noConfusion h) rfl

end NpcBot
